import Mathlib

/-!
Verification development for the OpenThread-derived Thread-mesh node core
(MLE state machine, CSL tx scheduler, CSL receiver, sub-child extension).

Each section shallowly embeds one piece of the C++ source as executable Lean
definitions (machine integers become `Nat`, with an explicit `% 2^w` wherever
the C++ arithmetic can wrap in a way that matters), and proves the spec
properties about them.
-/

namespace OpenThread

/-! ## MLE secured-message receive path (`Mle::HandleUdpReceive`, mle.cpp)

The security-counter portion of `HandleUdpReceive` acting on a neighbor in
state `Valid` (mle.cpp lines 2344-2386, without the optional multi-radio
one-off duplicate shortcut, which also drops the message).  Counters are
`uint32_t` in the source, so the stored-counter update `frameCounter + 1`
wraps modulo 2^32.
-/

/-- Width of a `uint32_t` value. -/
def u32Mod : Nat := 2 ^ 32

/-- Security-relevant per-neighbor state: the neighbor's adopted key sequence
and the expected next MLE frame counter (`mMleFrameCounter`), plus the link
frame counters that are reset on key-sequence adoption. -/
structure NeighborSec where
  keySequence : Nat
  mleFrameCounter : Nat
  linkFrameCounter : Nat
  linkAckFrameCounter : Nat
  deriving Repr, DecidableEq

/-- The security header data of one received (and successfully decrypted) MLE
message: its key sequence (`header.GetKeyId()`) and frame counter. -/
structure MleSecMsg where
  keySequence : Nat
  frameCounter : Nat
  deriving Repr, DecidableEq

/-- Outcome of the counter check for one message. -/
inductive RxSecOutcome where
  | accepted
  | droppedDuplicated
  deriving Repr, DecidableEq

/-- The frame-counter / key-sequence check of `Mle::HandleUdpReceive`
(mle.cpp lines 2344-2386) for a neighbor in state `Valid`:

* equal key sequence: the message frame counter must be `≥` the stored
  `mMleFrameCounter`, else the message is dropped as `kErrorDuplicated`;
* smaller key sequence: dropped as `kErrorDuplicated`;
* larger key sequence: adopted, and the link frame counters are reset;
* every message that survives has `mMleFrameCounter` set to its frame
  counter plus one (`uint32_t` arithmetic). -/
def handleUdpReceiveSec (st : NeighborSec) (m : MleSecMsg) : RxSecOutcome × NeighborSec :=
  if m.keySequence = st.keySequence then
    if m.frameCounter ≥ st.mleFrameCounter then
      (.accepted, { st with mleFrameCounter := (m.frameCounter + 1) % u32Mod })
    else
      (.droppedDuplicated, st)
  else if m.keySequence > st.keySequence then
    (.accepted,
      { keySequence := m.keySequence
        mleFrameCounter := (m.frameCounter + 1) % u32Mod
        linkFrameCounter := 0
        linkAckFrameCounter := 0 })
  else
    (.droppedDuplicated, st)

/-- The sub-list of messages of a trace that `handleUdpReceiveSec` accepts,
threading the neighbor state through the trace. -/
def acceptedMsgs (st : NeighborSec) : List MleSecMsg → List MleSecMsg
  | [] => []
  | m :: ms =>
    match handleUdpReceiveSec st m with
    | (.accepted, st2) => m :: acceptedMsgs st2 ms
    | (.droppedDuplicated, st2) => acceptedMsgs st2 ms

/-! ## Key-sequence adoption (`Mle::ProcessKeySequence`, mle.cpp lines 2545-2600) -/

/-- Message classification set by the `Handle{MleMsg}()` methods. -/
inductive MsgClass where
  | authoritativeMessage
  | peerMessage
  | unknown
  deriving Repr, DecidableEq

/-- Flags passed to `KeyManager::SetCurrentKeySequence`. -/
structure KeySeqFlags where
  forceUpdate : Bool
  applySwitchGuard : Bool
  resetGuardTimer : Bool
  deriving Repr, DecidableEq

/-- What `Mle::ProcessKeySequence` ends up doing for one received message. -/
inductive KeySeqAction where
  | nothing
  | reestablishLink
  | setCurrentKeySequence (newKeySeq : Nat) (flags : KeySeqFlags)
  deriving Repr, DecidableEq

/-- Whether the action adopts (sets) a new key sequence. -/
def KeySeqAction.adopts : KeySeqAction → Bool
  | .setCurrentKeySequence _ _ => true
  | _ => false

/-- Shallow embedding of `Mle::ProcessKeySequence` (mle.cpp lines 2545-2600).
Inputs: the received message's key sequence, the device's current key
sequence, the message class, and whether `aRxInfo.mNeighbor` is non-null and
in state `Valid`.  Reaching the `KeyManager::SetCurrentKeySequence` call is
the `setCurrentKeySequence` action; reaching
`ReestablishLinkWithNeighbor` is `reestablishLink`. -/
def processKeySequence (msgKeySeq curKeySeq : Nat) (cls : MsgClass)
    (neighborStateValid : Bool) : KeySeqAction :=
  if ¬ msgKeySeq > curKeySeq then .nothing
  else
    let isNextKeySeq : Bool := msgKeySeq - curKeySeq = 1
    match cls with
    | .authoritativeMessage =>
        .setCurrentKeySequence msgKeySeq
          { forceUpdate := true, applySwitchGuard := false, resetGuardTimer := isNextKeySeq }
    | .peerMessage =>
        if ¬ neighborStateValid then .nothing
        else if ¬ isNextKeySeq then .reestablishLink
        else
          .setCurrentKeySequence msgKeySeq
            { forceUpdate := false, applySwitchGuard := true, resetGuardTimer := isNextKeySeq }
    | .unknown => .nothing

/-! ## CSL tx scheduler (`CslTxScheduler`, csl_tx_scheduler.cpp)

The file holds two variants of the scheduler: the shared/MTD sub-child
variant and the FTD variant.  Their window math differs only in that the
MTD variant patches a zero `periodInUs` to `10000` before the advance loop
(after the initial modulo, which in C++ would already be undefined for a
zero period; the claims only exercise a positive period).
-/

/-- Duration of ten 802.15.4 symbols in microseconds
(`kUsPerTenSymbols`, defined in the MAC headers outside src/): a symbol is
16 us, so ten symbols are 160 us. -/
def kUsPerTenSymbols : Nat := 160

/-- CSL data of one indirect-reachable neighbor as used by the scheduler:
`mCslPeriod` (`uint16_t`, units of ten symbols), `mCslPhase` (units of ten
symbols), `mCslLastRxTimestamp` (us, `uint64_t`), whether the neighbor is
CSL-synchronized, and its queued indirect message count. -/
structure CslNeighbor where
  cslPeriod : Nat
  cslPhase : Nat
  lastRxTimestamp : Nat
  cslSynchronized : Bool
  indirectMessageCount : Nat
  deriving Repr, DecidableEq

/-- The `while (nextTxWindow < radioNow + aAheadUs) nextTxWindow += periodInUs`
loop of `GetNextCslTransmissionDelay`.  The guard `0 < periodInUs` makes the
recursion well-founded; the C++ loop does not terminate for a zero period. -/
def advanceTxWindow (periodInUs target w : Nat) : Nat :=
  if _h : 0 < periodInUs ∧ w < target then
    advanceTxWindow periodInUs target (w + periodInUs)
  else
    w
termination_by target - w
decreasing_by
  omega

/-- The `nextTxWindow` value computed by the FTD variant of
`CslTxScheduler::GetNextCslTransmissionDelay` (csl_tx_scheduler.cpp lines
537-556): start from `radioNow - (radioNow % periodInUs) +
(firstTxWindow % periodInUs)` and advance by whole periods until it is at
least `radioNow + aAheadUs`. -/
def cslNextTxWindow (n : CslNeighbor) (radioNow aAheadUs : Nat) : Nat :=
  let periodInUs := n.cslPeriod * kUsPerTenSymbols
  let firstTxWindow := n.lastRxTimestamp + n.cslPhase * kUsPerTenSymbols
  let start := radioNow - radioNow % periodInUs + firstTxWindow % periodInUs
  advanceTxWindow periodInUs (radioNow + aAheadUs) start

/-- FTD variant of `CslTxScheduler::GetNextCslTransmissionDelay`
(csl_tx_scheduler.cpp lines 537-556).  Returns the pair of the function
result `nextTxWindow - radioNow - aAheadUs` and the `aDelayFromLastRx` out
parameter `nextTxWindow - lastRxTimestamp`; both are cast to `uint32_t` in
the source. -/
def getNextCslTransmissionDelay (n : CslNeighbor) (radioNow aAheadUs : Nat) : Nat × Nat :=
  let nextTxWindow := cslNextTxWindow n radioNow aAheadUs
  ((nextTxWindow - radioNow - aAheadUs) % u32Mod,
   (nextTxWindow - n.lastRxTimestamp) % u32Mod)

/-- The `nextTxWindow` computed by the shared/MTD variant of
`CslTxScheduler::GetNextCslTransmissionDelay` (csl_tx_scheduler.cpp lines
180-205): identical to the FTD variant except that a zero `periodInUs` is
replaced by `10000` after the initial modulo step and before the advance
loop.  (For a zero period the initial C++ `% periodInUs` is already
undefined behaviour; Lean's `x % 0 = x` stands in for it, and the claims
only use a positive period.) -/
def cslNextTxWindowMtd (n : CslNeighbor) (radioNow aAheadUs : Nat) : Nat :=
  let periodInUs := n.cslPeriod * kUsPerTenSymbols
  let firstTxWindow := n.lastRxTimestamp + n.cslPhase * kUsPerTenSymbols
  let start := radioNow - radioNow % periodInUs + firstTxWindow % periodInUs
  let periodInUs := if periodInUs = 0 then 10000 else periodInUs
  advanceTxWindow periodInUs (radioNow + aAheadUs) start

/-- Shared/MTD variant of `CslTxScheduler::GetNextCslTransmissionDelay`
(csl_tx_scheduler.cpp lines 180-205), returning the result and the
`aDelayFromLastRx` out parameter. -/
def getNextCslTransmissionDelayMtd (n : CslNeighbor) (radioNow aAheadUs : Nat) : Nat × Nat :=
  let nextTxWindow := cslNextTxWindowMtd n radioNow aAheadUs
  ((nextTxWindow - radioNow - aAheadUs) % u32Mod,
   (nextTxWindow - n.lastRxTimestamp) % u32Mod)

/-- Eligibility filter shared by both `RescheduleCslTx` variants: a neighbor
is skipped unless it is CSL-synchronized and has at least one queued
indirect message. -/
def cslTxEligible (n : CslNeighbor) : Bool :=
  n.cslSynchronized && n.indirectMessageCount != 0

/-- `Time::kMaxDuration`, the initial value of `minDelayTime` in
`RescheduleCslTx` (the maximum `uint32_t` duration). -/
def kMaxDuration : Nat := u32Mod - 1

/-- One candidate step of `CslTxScheduler::RescheduleCslTx` /
`ProcessNeighborCslTxTime` (csl_tx_scheduler.cpp lines 158-178 and 510-527):
skip a non-eligible neighbor, otherwise compute its delay and keep it when
strictly smaller than the best so far. -/
def processNeighborCslTxTime (radioNow aAheadUs : Nat) (n : CslNeighbor)
    (acc : Nat × Option CslNeighbor) : Nat × Option CslNeighbor :=
  if cslTxEligible n then
    let delay := (getNextCslTransmissionDelay n radioNow aAheadUs).1
    if delay < acc.1 then (delay, some n) else acc
  else
    acc

/-- `CslTxScheduler::RescheduleCslTx` (FTD variant, csl_tx_scheduler.cpp
lines 505-535) over the list of candidate neighbors, in table order:
returns the final `(minDelayTime, bestNeighbor)` pair.  A timed
transmission is requested from `Mac` exactly when `bestNeighbor` is not
`none`. -/
def rescheduleCslTx (radioNow aAheadUs : Nat) (neighbors : List CslNeighbor) :
    Nat × Option CslNeighbor :=
  neighbors.foldl (fun acc n => processNeighborCslTxTime radioNow aAheadUs n acc)
    (kMaxDuration, none)

/-! ## Retransmission continuity (`CslTxScheduler::HandleFrameRequest`,
`CslTxScheduler::HandleSentFrame`, `DataPollHandler::HandleFrameRequest`,
`DataPollHandler::HandleSentFrame`) -/

/-- The per-neighbor indirect-transmission state referenced by the
retransmission-continuity logic: the two attempt counters and the saved
MAC data sequence number, frame counter and key id of the latest attempt. -/
structure IndirectTxState where
  indirectTxAttempts : Nat
  cslTxAttempts : Nat
  indirectDataSequenceNumber : Nat
  indirectFrameCounter : Nat
  indirectKeyId : Nat
  cslSynchronized : Bool
  deriving Repr, DecidableEq

/-- The fields of a prepared MAC TX frame that the retransmission logic
touches. -/
structure TxFrameFields where
  isARetransmission : Bool
  sequence : Nat
  securityEnabled : Bool
  frameCounter : Nat
  keyId : Nat
  headerUpdated : Bool
  isEmpty : Bool
  deriving Repr, DecidableEq

/-- The retransmission block of `CslTxScheduler::HandleFrameRequest`
(csl_tx_scheduler.cpp lines 235-253 in the shared/MTD variant and lines
579-597 in the FTD variant; the two blocks are textually identical): when
either attempt counter of the target neighbor is positive, flag the frame
as a retransmission and reuse the saved sequence number — and, when the
frame has security enabled, the saved frame counter and key id. -/
def cslPrepareFrameRetx (st : IndirectTxState) (frame : TxFrameFields) : TxFrameFields :=
  if st.indirectTxAttempts > 0 || st.cslTxAttempts > 0 then
    let frame := { frame with
      isARetransmission := true
      sequence := st.indirectDataSequenceNumber }
    if frame.securityEnabled then
      { frame with
        frameCounter := st.indirectFrameCounter
        keyId := st.indirectKeyId }
    else
      frame
  else
    { frame with isARetransmission := false }

/-- The retransmission block of `DataPollHandler::HandleFrameRequest`
(data_poll_handler.cpp lines 189-211), in the
`OPENTHREAD_CONFIG_MAC_CSL_TRANSMITTER_ENABLE` configuration; it is the
same logic as `cslPrepareFrameRetx`. -/
def dataPollPrepareFrameRetx (st : IndirectTxState) (frame : TxFrameFields) : TxFrameFields :=
  if st.indirectTxAttempts > 0 || st.cslTxAttempts > 0 then
    let frame := { frame with
      isARetransmission := true
      sequence := st.indirectDataSequenceNumber }
    if frame.securityEnabled then
      { frame with
        frameCounter := st.indirectFrameCounter
        keyId := st.indirectKeyId }
    else
      frame
  else
    { frame with isARetransmission := false }

/-- Transmission error outcomes reaching
`CslTxScheduler::HandleSentFrame` (the `default` arm asserts in the source). -/
inductive TxError where
  | none
  | noAck
  | channelAccessFailure
  | abort
  deriving Repr, DecidableEq

/-- `kMaxCslTriggeredTxAttempts` (header constant outside src/; the default
configuration value).  The claims do not depend on the exact value. -/
def kMaxCslTriggeredTxAttempts : Nat := 4

/-- State update of `CslTxScheduler::HandleSentFrame(aFrame, aError, aNeighbor)`
(csl_tx_scheduler.cpp lines 318-378 and identically 657-717): a frame sent
with no error resets both attempt counters; on `NoAck` the CSL attempt
counter is incremented (desynchronizing the neighbor when it reaches the
maximum) and then — as for channel-access failure and abort — the frame's
sequence number (and frame counter and key id, when security is enabled
and the header was updated) are saved for the next attempt, unless the
frame is empty. -/
def cslHandleSentFrame (err : TxError) (frame : TxFrameFields)
    (st : IndirectTxState) : IndirectTxState :=
  match err with
  | .none =>
    { st with cslTxAttempts := 0, indirectTxAttempts := 0 }
  | .noAck =>
    let st := { st with cslTxAttempts := st.cslTxAttempts + 1 }
    let st :=
      if st.cslTxAttempts ≥ kMaxCslTriggeredTxAttempts then
        { st with cslSynchronized := false, cslTxAttempts := 0 }
      else st
    cslSaveFrameForRetx frame st
  | .channelAccessFailure => cslSaveFrameForRetx frame st
  | .abort => cslSaveFrameForRetx frame st
where
  /-- The shared tail of the `NoAck` / `ChannelAccessFailure` / `Abort` arms
  that records the attempted frame's identifiers on the neighbor. -/
  cslSaveFrameForRetx (frame : TxFrameFields) (st : IndirectTxState) : IndirectTxState :=
    if ¬ frame.isEmpty then
      let st := { st with indirectDataSequenceNumber := frame.sequence }
      if frame.securityEnabled && frame.headerUpdated then
        { st with
          indirectFrameCounter := frame.frameCounter
          indirectKeyId := frame.keyId }
      else st
    else st

/-- `DataPollHandler::ResetTxAttempts` (data_poll_handler.cpp lines 331-338,
with the CSL transmitter enabled): clears both attempt counters.  This is
what `DataPollHandler::HandleSentFrame` runs in its `kErrorNone` arm. -/
def dataPollResetTxAttempts (st : IndirectTxState) : IndirectTxState :=
  { st with indirectTxAttempts := 0, cslTxAttempts := 0 }

/-! ## Retransmission tracker (`Mle::RetxTracker`, mle.cpp lines 5541-5755) -/

/-- `Mle::RetxTracker::RetryInfo::State`. -/
inductive RetryState where
  | idle
  | waitingForResponse
  | sendingKeepAlive
  deriving Repr, DecidableEq

/-- One retry track (`Mle::RetxTracker::RetryInfo`): its state, the
scheduled next transmit time (`TimeMilli`) and the saturating attempt
counter. -/
structure RetryInfo where
  state : RetryState
  nextTxTime : Nat
  attempts : Nat
  deriving Repr, DecidableEq

/-- `kMaxAttempts` (`Mle::RetxTracker` header constant outside src/; the
OpenThread keep-alive attempt maximum).  The claims compare against it
without depending on the exact value. -/
def kMaxAttempts : Nat := 4

/-- `Mle::RetxTracker::RetryInfo::ShouldSend` (mle.cpp lines 5560-5575):
an idle track never fires; otherwise it fires when `aNow ≥ mNextTxTime`. -/
def RetryInfo.shouldSend (r : RetryInfo) (now : Nat) : Bool :=
  match r.state with
  | .idle => false
  | .waitingForResponse => now ≥ r.nextTxTime
  | .sendingKeepAlive => now ≥ r.nextTxTime

/-- What a single firing of `Mle::RetxTracker::HandleTimer` does. -/
inductive RetxTimerAction where
  | nothing
  | becomeDetached
  | sendChildUpdateRequest
  | sendDataRequest
  deriving Repr, DecidableEq

/-- `Mle::RetxTracker::HandleTimer` (mle.cpp lines 5731-5755), reduced to
the action it performs: when MLE is not disabled, the Child Update track is
examined first; if it fires, the device detaches when its attempts have
reached `kMaxAttempts` and otherwise retransmits the Child Update Request,
and in either case the handler exits.  Only when the Child Update track
does not fire is the Data Request track examined, with the same
detach-or-retransmit choice (`DetachIfMaxAttemptsReached`, mle.cpp lines
5590-5601). -/
def retxHandleTimer (disabled : Bool) (now : Nat) (childUpdate dataRequest : RetryInfo) :
    RetxTimerAction :=
  if disabled then .nothing
  else if childUpdate.shouldSend now then
    if childUpdate.attempts ≥ kMaxAttempts then .becomeDetached
    else .sendChildUpdateRequest
  else if dataRequest.shouldSend now then
    if dataRequest.attempts ≥ kMaxAttempts then .becomeDetached
    else .sendDataRequest
  else .nothing

/-! ## Graceful detach (`Mle::Detacher`, mle.cpp lines 5440-5536)

The detacher is driven by three entry points: `Detach` (the public
`detach_gracefully`), the `kTimeout` timer firing (`HandleTimer`), and the
parent's Child Update Response (`HandleChildUpdateResponse`).  `Mle::Stop`
first stops MLE and then — after the role change — runs
`Detacher::HandleStop`, which invokes and clears the callback when
detaching.  We model the detacher together with an `mleStopped` flag and a
log of callback invocations; each invocation records the time and whether
MLE was already stopped when the callback ran.
-/

/-- `Mle::Detacher::State`. -/
inductive DetacherState where
  | idle
  | detaching
  deriving Repr, DecidableEq

/-- Device role (`Mle::DeviceRole`) as far as `Detacher::Detach` cares. -/
inductive DeviceRole where
  | disabled
  | detached
  | child
  | router
  | leader
  deriving Repr, DecidableEq

/-- Modelled from the spec: the `kTimeout` constant of `Mle::Detacher`
(declared in mle.hpp, which is not under src/).  The spec fixes no value;
the claims only relate invocation times to it, so any value serves. -/
def kDetacherTimeout : Nat := 1000

/-- State of the detacher model: the detacher's own state, whether the user
callback is still set, whether `Mle::Stop` has run, whether the
zero-timeout Child Update Request to the parent was sent, and the log of
callback invocations as `(time, mleStoppedAtInvocation)` pairs in
chronological order. -/
structure DetacherM where
  dstate : DetacherState
  callbackSet : Bool
  mleStopped : Bool
  sentZeroTimeoutChildUpdate : Bool
  invocations : List (Nat × Bool)
  deriving Repr, DecidableEq

/-- `Mle::Detacher::HandleStop` (mle.cpp lines 5527-5536): run upon
`Mle::Stop()` after the role change; when detaching, return to idle and
invoke-and-clear the callback. -/
def detacherHandleStop (t : Nat) (st : DetacherM) : DetacherM :=
  if st.dstate = .detaching then
    { st with
      dstate := .idle
      callbackSet := false
      invocations :=
        st.invocations ++ (if st.callbackSet then [(t, st.mleStopped)] else []) }
  else st

/-- `Mle::Stop` as the detacher sees it: MLE stops, then
`Detacher::HandleStop` runs. -/
def mleStop (t : Nat) (st : DetacherM) : DetacherM :=
  detacherHandleStop t { st with mleStopped := true }

/-- `Mle::Detacher::Detach` (mle.cpp lines 5449-5492).  Returns the new
state together with the started timer duration, or `none` (the
`kErrorBusy` early exit) when a detach is already in progress.  On a
child, a Child Update Request with zero timeout is sent to the parent; on
a disabled or detached device the timer duration is zero. -/
def detacherDetach (role : DeviceRole) (st : DetacherM) : Option (DetacherM × Nat) :=
  if st.dstate ≠ .idle then none
  else
    let timeout := kDetacherTimeout
    let st := { st with callbackSet := true }
    let (st, timeout) :=
      match role with
      | .leader => (st, timeout)
      | .router => (st, timeout)
      | .child => ({ st with sentZeroTimeoutChildUpdate := true }, timeout)
      | .disabled => (st, 0)
      | .detached => (st, 0)
    some ({ st with dstate := .detaching }, timeout)

/-- `Mle::Detacher::HandleTimer` (mle.cpp lines 5494-5500): when detaching,
stop MLE. -/
def detacherHandleTimer (t : Nat) (st : DetacherM) : DetacherM :=
  if st.dstate = .detaching then mleStop t st else st

/-- `Mle::Detacher::HandleChildUpdateResponse` (mle.cpp lines 5502-5525):
when detaching and the response's Timeout TLV is zero, stop MLE. -/
def detacherHandleChildUpdateResponse (t : Nat) (timeoutTlv : Nat) (st : DetacherM) :
    DetacherM :=
  if st.dstate = .detaching then
    if timeoutTlv = 0 then mleStop t st else st
  else st

/-- Events the detacher can observe after `Detach` returns, each stamped
with its occurrence time: the `kTimeout` timer firing, or a Child Update
Response from the parent carrying a Timeout TLV value. -/
inductive DetachEvent where
  | timerFire
  | childUpdateResponse (timeoutTlv : Nat)
  deriving Repr, DecidableEq

/-- Dispatch one timestamped event to the detacher. -/
def detacherStep (st : DetacherM) (ev : Nat × DetachEvent) : DetacherM :=
  match ev.2 with
  | .timerFire => detacherHandleTimer ev.1 st
  | .childUpdateResponse timeoutTlv => detacherHandleChildUpdateResponse ev.1 timeoutTlv st

/-- Run the detacher over a chronological list of timestamped events. -/
def detacherRun (st : DetacherM) (evs : List (Nat × DetachEvent)) : DetacherM :=
  evs.foldl detacherStep st

/-! ## Sub-child forwarding (`MleSubChild`, settings.cpp lines 883-1077)

A sub-child parent forwards Child ID Responses and Child Update
Requests/Responses toward a destination RLOC16 by scanning its child table
for a child in state `Valid` whose RLOC16 prefix covers the destination.
-/

/-- `Mle::kInvalidRloc16` (header constant outside src/): `0xfffe`. -/
def kInvalidRloc16 : Nat := 0xfffe

/-- Modelled from the spec: `Mle::IsSubChildOf` is declared and used in
src/ (child.hpp line 626, settings.cpp lines 932/1002/1057) but its body is
not under src/.  Per the spec, it is true iff the high `viaPrefixLength`
bits of the 16-bit `dstRloc` equal those of `viaRloc`. -/
def isSubChildOf (dstRloc viaRloc viaPrefixLength : Nat) : Bool :=
  dstRloc / 2 ^ (16 - viaPrefixLength) = viaRloc / 2 ^ (16 - viaPrefixLength)

/-- The per-child data the forwarding loops read: whether the child is in
state `Valid`, its RLOC16, its RLOC prefix length, and its extended
address (modelled as a number identifying the link-local destination the
message is sent to). -/
structure SubChildEntry where
  isStateValid : Bool
  rloc16 : Nat
  rlocPrefixLength : Nat
  extAddress : Nat
  deriving Repr, DecidableEq

/-- Result of a forwarding attempt: the link-local next hop derived from a
child's extended address, or the `kErrorNoRoute` drop. -/
inductive ForwardResult where
  | sendToLinkLocal (extAddress : Nat)
  | noRoute
  deriving Repr, DecidableEq

/-- Next-hop selection of `MleSubChild::HandleSubChildIdResponse`
(settings.cpp lines 930-941) for a destination RLOC16 that is not this
device's own: iterate the child table restricted to state `Valid` and take
the FIRST child satisfying `IsSubChildOf` (the loop breaks on the first
match); with no match the message is dropped with `kErrorNoRoute`. -/
def forwardSubChildIdResponse (dstRloc : Nat) (children : List SubChildEntry) :
    ForwardResult :=
  match children.find? (fun c => c.isStateValid && isSubChildOf dstRloc c.rloc16 c.rlocPrefixLength) with
  | some c => .sendToLinkLocal c.extAddress
  | none => .noRoute

/-- Next-hop selection of `MleSubChild::ForwardToSubChildUpdateRequest`
(settings.cpp lines 1000-1010): same iteration, but the loop body has no
`break`, so the LAST matching child in state `Valid` wins; with no match
the message is dropped with `kErrorNoRoute`. -/
def forwardToSubChildUpdateRequest (dstRloc : Nat) (children : List SubChildEntry) :
    ForwardResult :=
  match children.foldl
      (fun acc c =>
        if c.isStateValid && isSubChildOf dstRloc c.rloc16 c.rlocPrefixLength then some c
        else acc)
      none with
  | some c => .sendToLinkLocal c.extAddress
  | none => .noRoute

/-- Next-hop selection of `MleSubChild::ForwardToSubChildUpdateResponse`
(settings.cpp lines 1055-1065): identical to
`forwardToSubChildUpdateRequest` (again no `break`, last match wins). -/
def forwardToSubChildUpdateResponse (dstRloc : Nat) (children : List SubChildEntry) :
    ForwardResult :=
  match children.foldl
      (fun acc c =>
        if c.isStateValid && isSubChildOf dstRloc c.rloc16 c.rlocPrefixLength then some c
        else acc)
      none with
  | some c => .sendToLinkLocal c.extAddress
  | none => .noRoute

/-! ## CSL receiver window math (`SubMac`, sub_mac_csl_receiver.cpp) -/

/-- The per-peer data `SubMac::GetCslNeighborSemiWindow` reads: the state
filter applied by the caller, the peer's `CslLastSync` timestamp (us), and
the peer's CSL accuracy (ppm) and uncertainty (already in microseconds). -/
structure CslRxPeer where
  isStateValid : Bool
  cslLastSync : Nat
  cslAccuracyPpm : Nat
  cslUncertaintyUs : Nat
  deriving Repr, DecidableEq

/-- Radio-side configuration of the window math: the local clock accuracy
(`otPlatRadioGetCslAccuracy`, ppm), the local uncertainty
(`otPlatRadioGetCslUncertainty`, units of 10 us), and the
`kMinReceiveOnAhead` / `kCslReceiveTimeAhead` / `kMinReceiveOnAfter`
constants (defined in MAC headers outside src/). -/
structure CslRxConfig where
  localAccuracyPpm : Nat
  localUncertainty10Us : Nat
  minReceiveOnAhead : Nat
  cslReceiveTimeAhead : Nat
  minReceiveOnAfter : Nat
  deriving Repr, DecidableEq

/-- `SubMac::GetCslNeighborSemiWindow` (sub_mac_csl_receiver.cpp lines
437-448): `elapsed * (localPpm + peerPpm) / 1000000` with TRUNCATING
(floor) division, plus the peer's uncertainty in microseconds, plus the
local uncertainty times ten.  (`elapsed = aTime - lastSync` is `uint32_t`
arithmetic; the sync invariant `lastSync ≤ now` keeps it exact here.) -/
def getCslNeighborSemiWindow (cfg : CslRxConfig) (peer : CslRxPeer) (aTime : Nat) : Nat :=
  let elapsed := aTime - peer.cslLastSync
  let semiWindow := elapsed * (cfg.localAccuracyPpm + peer.cslAccuracyPpm) / 1000000
  semiWindow + peer.cslUncertaintyUs + cfg.localUncertainty10Us * 10

/-- `SubMac::GetCslWindowEdges` (sub_mac_csl_receiver.cpp lines 396-435):
`semiWindow` starts at ZERO, is set to the parent's semi-window when the
parent is in state `Valid`, is raised to the parent candidate's
semi-window PLUS 5000 us (a temporary fix noted in the source) when the
candidate is in state `Valid`, and is raised to each `Valid` child's
semi-window.  The edges are
`aAhead = min(semiPeriod, semiWindow + kMinReceiveOnAhead + kCslReceiveTimeAhead)`
and `aAfter = min(semiPeriod, semiWindow + kMinReceiveOnAfter)` with
`semiPeriod = cslPeriod * kUsPerTenSymbols / 2`. -/
def getCslWindowEdges (cfg : CslRxConfig) (cslPeriod : Nat)
    (parent parentCandidate : CslRxPeer) (children : List CslRxPeer)
    (curTime : Nat) : Nat × Nat :=
  let semiPeriod := cslPeriod * kUsPerTenSymbols / 2
  let semiWindow : Nat := 0
  let semiWindow :=
    if parent.isStateValid then getCslNeighborSemiWindow cfg parent curTime
    else semiWindow
  let semiWindow :=
    if parentCandidate.isStateValid then
      let newSemiWindow := getCslNeighborSemiWindow cfg parentCandidate curTime + 5000
      if newSemiWindow > semiWindow then newSemiWindow else semiWindow
    else semiWindow
  let semiWindow :=
    children.foldl
      (fun semiWindow child =>
        if child.isStateValid then
          let childSemiWindow := getCslNeighborSemiWindow cfg child curTime
          if childSemiWindow > semiWindow then childSemiWindow else semiWindow
        else semiWindow)
      semiWindow
  (min semiPeriod (semiWindow + cfg.minReceiveOnAhead + cfg.cslReceiveTimeAhead),
   min semiPeriod (semiWindow + cfg.minReceiveOnAfter))

/-! ## CSL neighbor table update (`SubMac::UpdateCslNeighbors`,
sub_mac_csl_receiver.cpp lines 213-237) -/

/-- What `UpdateCslNeighbors` reads of the MLE parent and parent candidate:
the state-`Valid` test, the RLOC16 and the extended address. -/
structure CslTableNeighbor where
  isStateValid : Bool
  rloc16 : Nat
  extAddress : Nat
  deriving Repr, DecidableEq

/-- What `UpdateCslNeighbors` reads of a child iterated with the
`kInStateWithSecurityReady` filter. -/
structure CslTableChild where
  securityReady : Bool
  rloc16 : Nat
  extAddress : Nat
  deriving Repr, DecidableEq

/-- The radio's CSL entry tables, in insertion order. -/
structure CslEntryTables where
  shortEntries : List Nat
  extEntries : List Nat
  deriving Repr, DecidableEq

/-- `SubMac::UpdateCslNeighbors` (sub_mac_csl_receiver.cpp lines 213-237):
clear both radio CSL entry tables, then

* when the parent is in state `Valid`, add the parent's RLOC16 and
  extended address;
* when the parent CANDIDATE is in state `Valid`, the source again adds
  `GetParent()`'s RLOC16 and extended address (lines 225-226) — not the
  candidate's own;
* for every child passing the `kInStateWithSecurityReady` filter, add its
  RLOC16 (only when it is not `kInvalidRloc16`) and its extended address. -/
def updateCslNeighbors (parent parentCandidate : CslTableNeighbor)
    (children : List CslTableChild) : CslEntryTables :=
  let tables : CslEntryTables := { shortEntries := [], extEntries := [] }
  let tables :=
    if parent.isStateValid then
      { tables with
        shortEntries := tables.shortEntries ++ [parent.rloc16]
        extEntries := tables.extEntries ++ [parent.extAddress] }
    else tables
  let tables :=
    if parentCandidate.isStateValid then
      { tables with
        shortEntries := tables.shortEntries ++ [parent.rloc16]
        extEntries := tables.extEntries ++ [parent.extAddress] }
    else tables
  children.foldl
    (fun tables child =>
      if child.securityReady then
        let tables :=
          if child.rloc16 ≠ kInvalidRloc16 then
            { tables with shortEntries := tables.shortEntries ++ [child.rloc16] }
          else tables
        { tables with extEntries := tables.extEntries ++ [child.extAddress] }
      else tables)
    tables

/-! # Theorems -/

/-! ## C1: MLE frame counter monotonicity -/

/-- Every message accepted from a trace carries a key sequence at least the
starting one, and — under the starting key sequence — a frame counter at
least the starting expected counter.  The well-formedness bound keeps the
`uint32_t` increment of the stored counter exact. -/
theorem acceptedMsgs_lowerBound (msgs : List MleSecMsg) :
    ∀ st : NeighborSec, (∀ m ∈ msgs, m.frameCounter + 1 < u32Mod) →
      ∀ m2 ∈ acceptedMsgs st msgs,
        st.keySequence ≤ m2.keySequence ∧
          (m2.keySequence = st.keySequence → st.mleFrameCounter ≤ m2.frameCounter) := by
  induction msgs with
  | nil =>
    intro st _ m2 hm2
    simp [acceptedMsgs] at hm2
  | cons m ms ih =>
    intro st hwf m2 hm2
    have hwfm : m.frameCounter + 1 < u32Mod := hwf m (by simp)
    have hwfs : ∀ x ∈ ms, x.frameCounter + 1 < u32Mod := fun x hx => hwf x (by simp [hx])
    have hmod : (m.frameCounter + 1) % u32Mod = m.frameCounter + 1 :=
      Nat.mod_eq_of_lt hwfm
    by_cases heq : m.keySequence = st.keySequence
    · by_cases hge : st.mleFrameCounter ≤ m.frameCounter
      · rw [show acceptedMsgs st (m :: ms) =
            m :: acceptedMsgs { st with mleFrameCounter := (m.frameCounter + 1) % u32Mod } ms by
          simp [acceptedMsgs, handleUdpReceiveSec, heq, hge]] at hm2
        rcases List.mem_cons.mp hm2 with h | h
        · subst h
          exact ⟨le_of_eq heq.symm, fun _ => hge⟩
        · have := ih { st with mleFrameCounter := (m.frameCounter + 1) % u32Mod } hwfs m2 h
          refine ⟨this.1, fun hk => ?_⟩
          have h2 := this.2 hk
          simp only [hmod] at h2
          omega
      · rw [show acceptedMsgs st (m :: ms) = acceptedMsgs st ms by
          simp [acceptedMsgs, handleUdpReceiveSec, heq, hge]] at hm2
        exact ih st hwfs m2 hm2
    · by_cases hgt : m.keySequence > st.keySequence
      · rw [show acceptedMsgs st (m :: ms) =
            m :: acceptedMsgs
              { keySequence := m.keySequence
                mleFrameCounter := (m.frameCounter + 1) % u32Mod
                linkFrameCounter := 0, linkAckFrameCounter := 0 } ms by
          simp [acceptedMsgs, handleUdpReceiveSec, heq, hgt]] at hm2
        rcases List.mem_cons.mp hm2 with h | h
        · subst h
          exact ⟨le_of_lt hgt, fun hk => absurd hk heq⟩
        · have := ih
            { keySequence := m.keySequence
              mleFrameCounter := (m.frameCounter + 1) % u32Mod
              linkFrameCounter := 0, linkAckFrameCounter := 0 } hwfs m2 h
          have h1 := this.1
          simp only at h1
          constructor
          · omega
          · intro hk
            omega
      · rw [show acceptedMsgs st (m :: ms) = acceptedMsgs st ms by
          simp [acceptedMsgs, handleUdpReceiveSec, heq, hgt]] at hm2
        exact ih st hwfs m2 hm2

/-- C1 (amended): for a neighbor in state `Valid`, over any trace of
decrypted-and-verified MLE messages in which no message carries the
maximal `uint32_t` frame counter `2^32 - 1`, the messages
`Mle::HandleUdpReceive` accepts are strictly increasing in frame counter
whenever they share a key sequence — in particular no two accepted
messages under one key sequence carry equal frame counters. -/
theorem mle_frameCounter_strictMono (st : NeighborSec) (msgs : List MleSecMsg)
    (hwf : ∀ m ∈ msgs, m.frameCounter + 1 < u32Mod) :
    List.Pairwise
      (fun m1 m2 => m1.keySequence = m2.keySequence → m1.frameCounter < m2.frameCounter)
      (acceptedMsgs st msgs) := by
  induction msgs generalizing st with
  | nil => simp [acceptedMsgs]
  | cons m ms ih =>
    have hwfm : m.frameCounter + 1 < u32Mod := hwf m (by simp)
    have hwfs : ∀ x ∈ ms, x.frameCounter + 1 < u32Mod := fun x hx => hwf x (by simp [hx])
    have hmod : (m.frameCounter + 1) % u32Mod = m.frameCounter + 1 :=
      Nat.mod_eq_of_lt hwfm
    by_cases heq : m.keySequence = st.keySequence
    · by_cases hge : st.mleFrameCounter ≤ m.frameCounter
      · rw [show acceptedMsgs st (m :: ms) =
            m :: acceptedMsgs { st with mleFrameCounter := (m.frameCounter + 1) % u32Mod } ms by
          simp [acceptedMsgs, handleUdpReceiveSec, heq, hge]]
        refine List.Pairwise.cons ?_ (ih _ hwfs)
        intro m2 hm2 hk
        have hb := acceptedMsgs_lowerBound ms _ hwfs m2 hm2
        have h2 := hb.2 (hk.symm.trans heq)
        simp only [hmod] at h2
        omega
      · rw [show acceptedMsgs st (m :: ms) = acceptedMsgs st ms by
          simp [acceptedMsgs, handleUdpReceiveSec, heq, hge]]
        exact ih st hwfs
    · by_cases hgt : m.keySequence > st.keySequence
      · rw [show acceptedMsgs st (m :: ms) =
            m :: acceptedMsgs
              { keySequence := m.keySequence
                mleFrameCounter := (m.frameCounter + 1) % u32Mod
                linkFrameCounter := 0, linkAckFrameCounter := 0 } ms by
          simp [acceptedMsgs, handleUdpReceiveSec, heq, hgt]]
        refine List.Pairwise.cons ?_ (ih _ hwfs)
        intro m2 hm2 hk
        have hb := acceptedMsgs_lowerBound ms _ hwfs m2 hm2
        have h2 := hb.2 (by simpa using hk.symm)
        simp only [hmod] at h2
        omega
      · rw [show acceptedMsgs st (m :: ms) = acceptedMsgs st ms by
          simp [acceptedMsgs, handleUdpReceiveSec, heq, hgt]]
        exact ih st hwfs

/-- C1 counterexample to the claim as stated: at the maximal `uint32_t`
frame counter the stored `mMleFrameCounter := frameCounter + 1` wraps to
zero, so a neighbor in state `Valid` accepts two messages under the same
key sequence with EQUAL frame counters `2^32 - 1`. -/
theorem mle_frameCounter_wrap_counterexample :
    acceptedMsgs ⟨7, 0, 0, 0⟩
        [⟨7, u32Mod - 1⟩, ⟨7, u32Mod - 1⟩] =
      [⟨7, u32Mod - 1⟩, ⟨7, u32Mod - 1⟩] ∧
    ¬ List.Pairwise
        (fun m1 m2 => m1.keySequence = m2.keySequence → m1.frameCounter ≠ m2.frameCounter)
        (acceptedMsgs ⟨7, 0, 0, 0⟩ [⟨7, u32Mod - 1⟩, ⟨7, u32Mod - 1⟩]) := by
  constructor
  · decide
  · decide

/-- C1 witness: the amended theorem applied to a concrete three-message
trace. -/
theorem mle_frameCounter_strictMono_witness :
    (∀ m ∈ [(⟨1, 5⟩ : MleSecMsg), ⟨1, 7⟩, ⟨2, 3⟩], m.frameCounter + 1 < u32Mod) ∧
    List.Pairwise
      (fun m1 m2 => m1.keySequence = m2.keySequence → m1.frameCounter < m2.frameCounter)
      (acceptedMsgs ⟨1, 5, 0, 0⟩ [⟨1, 5⟩, ⟨1, 7⟩, ⟨2, 3⟩]) :=
  ⟨by decide, mle_frameCounter_strictMono ⟨1, 5, 0, 0⟩ [⟨1, 5⟩, ⟨1, 7⟩, ⟨2, 3⟩] (by decide)⟩

/-! ## C2: key-sequence adoption policy -/

/-- C2: for a received message whose key sequence exceeds the device's
current one, `Mle::ProcessKeySequence` adopts the new key sequence iff the
message is Authoritative, or it is Peer from a neighbor in state `Valid`
with a difference of exactly one; a Peer message from a `Valid` neighbor
with a larger jump instead re-establishes the link, and an Unknown message
never adopts. -/
theorem processKeySequence_adoption_policy
    (msgKeySeq curKeySeq : Nat) (cls : MsgClass) (valid : Bool)
    (hgt : msgKeySeq > curKeySeq) :
    ((processKeySequence msgKeySeq curKeySeq cls valid).adopts = true ↔
      (cls = .authoritativeMessage ∨
        (cls = .peerMessage ∧ valid = true ∧ msgKeySeq - curKeySeq = 1))) ∧
    (cls = .peerMessage → valid = true → msgKeySeq - curKeySeq ≠ 1 →
      processKeySequence msgKeySeq curKeySeq cls valid = .reestablishLink) ∧
    (cls = .unknown → (processKeySequence msgKeySeq curKeySeq cls valid).adopts = false) := by
  cases cls <;> cases valid <;>
    by_cases hnext : msgKeySeq - curKeySeq = 1 <;>
      simp [processKeySequence, KeySeqAction.adopts, hgt, hnext]

/-- C2 witness: a Peer-class message from a `Valid` neighbor with key
sequence one above the current one adopts. -/
theorem processKeySequence_adoption_policy_witness :
    (5 : Nat) > 4 ∧
      ((processKeySequence 5 4 .peerMessage true).adopts = true ↔
        (MsgClass.peerMessage = .authoritativeMessage ∨
          (MsgClass.peerMessage = .peerMessage ∧ true = true ∧ 5 - 4 = 1))) :=
  ⟨by decide, (processKeySequence_adoption_policy 5 4 .peerMessage true (by decide)).1⟩

/-! ## C3: retransmission continuity -/

/-- C3: when either of a sleepy neighbor's attempt counters is positive,
the frame prepared by `CslTxScheduler::HandleFrameRequest` (both variants)
and by `DataPollHandler::HandleFrameRequest` is flagged as a
retransmission and reuses the saved MAC sequence number — and, with
security enabled, the saved frame counter and key id — of the most recent
prior attempt; a frame transmitted with no error resets both attempt
counters (in `CslTxScheduler::HandleSentFrame` and
`DataPollHandler::ResetTxAttempts`), and a failed non-empty attempt is
what saves those identifiers on the neighbor. -/
theorem retransmission_continuity (st : IndirectTxState) (f : TxFrameFields)
    (h : st.indirectTxAttempts > 0 ∨ st.cslTxAttempts > 0) :
    ((cslPrepareFrameRetx st f).isARetransmission = true ∧
      (cslPrepareFrameRetx st f).sequence = st.indirectDataSequenceNumber ∧
      (f.securityEnabled = true →
        (cslPrepareFrameRetx st f).frameCounter = st.indirectFrameCounter ∧
        (cslPrepareFrameRetx st f).keyId = st.indirectKeyId)) ∧
    dataPollPrepareFrameRetx st f = cslPrepareFrameRetx st f ∧
    ((cslHandleSentFrame .none f st).indirectTxAttempts = 0 ∧
      (cslHandleSentFrame .none f st).cslTxAttempts = 0 ∧
      (dataPollResetTxAttempts st).indirectTxAttempts = 0 ∧
      (dataPollResetTxAttempts st).cslTxAttempts = 0) ∧
    (∀ err : TxError, err ≠ .none → f.isEmpty = false →
      (cslHandleSentFrame err f st).indirectDataSequenceNumber = f.sequence ∧
      (f.securityEnabled = true → f.headerUpdated = true →
        (cslHandleSentFrame err f st).indirectFrameCounter = f.frameCounter ∧
        (cslHandleSentFrame err f st).indirectKeyId = f.keyId)) := by
  have hcond : (st.indirectTxAttempts > 0 || st.cslTxAttempts > 0) = true := by
    rcases h with h | h <;> simp [h]
  refine ⟨?_, ?_, ?_, ?_⟩
  · by_cases hsec : f.securityEnabled = true <;>
      simp [cslPrepareFrameRetx, hcond, hsec]
  · by_cases hsec : f.securityEnabled = true <;>
      simp [cslPrepareFrameRetx, dataPollPrepareFrameRetx, hcond, hsec]
  · simp [cslHandleSentFrame, dataPollResetTxAttempts]
  · intro err herr hempty
    have hsave : ∀ st2 : IndirectTxState,
        (cslHandleSentFrame.cslSaveFrameForRetx f st2).indirectDataSequenceNumber = f.sequence ∧
        (f.securityEnabled = true → f.headerUpdated = true →
          (cslHandleSentFrame.cslSaveFrameForRetx f st2).indirectFrameCounter = f.frameCounter ∧
          (cslHandleSentFrame.cslSaveFrameForRetx f st2).indirectKeyId = f.keyId) := by
      intro st2
      constructor
      · simp only [cslHandleSentFrame.cslSaveFrameForRetx, hempty, Bool.not_eq_true,
          Bool.false_eq_true, not_false_eq_true, if_true]
        split <;> rfl
      · intro h1 h2
        simp [cslHandleSentFrame.cslSaveFrameForRetx, hempty, h1, h2]
    cases err with
    | none => exact absurd rfl herr
    | noAck =>
      simp only [cslHandleSentFrame]
      exact hsave _
    | channelAccessFailure =>
      simp only [cslHandleSentFrame]
      exact hsave _
    | abort =>
      simp only [cslHandleSentFrame]
      exact hsave _

/-- C3 witness: a neighbor with one prior indirect attempt and a secured
frame. -/
theorem retransmission_continuity_witness :
    ((1 : Nat) > 0 ∨ (0 : Nat) > 0) ∧
    (cslPrepareFrameRetx ⟨1, 0, 9, 33, 2, true⟩ ⟨false, 0, true, 0, 0, true, false⟩).isARetransmission
      = true ∧
    (cslPrepareFrameRetx ⟨1, 0, 9, 33, 2, true⟩ ⟨false, 0, true, 0, 0, true, false⟩).sequence = 9 :=
  ⟨Or.inl (by decide),
    (retransmission_continuity ⟨1, 0, 9, 33, 2, true⟩ ⟨false, 0, true, 0, 0, true, false⟩
        (Or.inl (by decide))).1.1,
    (retransmission_continuity ⟨1, 0, 9, 33, 2, true⟩ ⟨false, 0, true, 0, 0, true, false⟩
        (Or.inl (by decide))).1.2.1⟩

/-! ## C6: retry-track exhaustion -/

/-- C6 counterexample to the claim as stated: when both tracks are due in
the same firing, `Mle::RetxTracker::HandleTimer` serves only the Child
Update track.  Here the Data Request track fires with its attempts at
`kMaxAttempts`, yet the device does not transition to Detached (and the
Data Request is not retransmitted either): the handler sends a Child
Update Request and exits. -/
theorem retxHandleTimer_counterexample :
    (RetryInfo.shouldSend ⟨.waitingForResponse, 0, kMaxAttempts⟩ 0 = true) ∧
    kMaxAttempts ≤ (RetryInfo.attempts ⟨.waitingForResponse, 0, kMaxAttempts⟩) ∧
    retxHandleTimer false 0 ⟨.waitingForResponse, 0, 0⟩ ⟨.waitingForResponse, 0, kMaxAttempts⟩
      = .sendChildUpdateRequest ∧
    retxHandleTimer false 0 ⟨.waitingForResponse, 0, 0⟩ ⟨.waitingForResponse, 0, kMaxAttempts⟩
      ≠ .becomeDetached := by
  refine ⟨by decide, by decide, by decide, by decide⟩

/-- C6 (amended): the two retry tracks are prioritized — a firing serves
the Child Update track whenever it is due, and the Data Request track only
otherwise.  For the served track, reaching `kMaxAttempts` makes the MLE
core transition to Detached without retransmitting; below the maximum the
track's message is retransmitted. -/
theorem retxHandleTimer_amended (now : Nat) (cu dr : RetryInfo) :
    (cu.shouldSend now = true → kMaxAttempts ≤ cu.attempts →
        retxHandleTimer false now cu dr = .becomeDetached) ∧
    (cu.shouldSend now = true → cu.attempts < kMaxAttempts →
        retxHandleTimer false now cu dr = .sendChildUpdateRequest) ∧
    (cu.shouldSend now = false → dr.shouldSend now = true → kMaxAttempts ≤ dr.attempts →
        retxHandleTimer false now cu dr = .becomeDetached) ∧
    (cu.shouldSend now = false → dr.shouldSend now = true → dr.attempts < kMaxAttempts →
        retxHandleTimer false now cu dr = .sendDataRequest) := by
  refine ⟨fun hs hm => ?_, fun hs hm => ?_, fun hs hds hm => ?_, fun hs hds hm => ?_⟩ <;>
    simp [retxHandleTimer, hs, hm, *]

/-- C6 witness: a due Child Update track at `kMaxAttempts` detaches. -/
theorem retxHandleTimer_amended_witness :
    (RetryInfo.shouldSend ⟨.waitingForResponse, 3, kMaxAttempts⟩ 5 = true ∧
      kMaxAttempts ≤ (RetryInfo.attempts ⟨.waitingForResponse, 3, kMaxAttempts⟩)) ∧
    retxHandleTimer false 5 ⟨.waitingForResponse, 3, kMaxAttempts⟩ ⟨.idle, 0, 0⟩
      = .becomeDetached :=
  ⟨⟨by decide, by decide⟩,
    (retxHandleTimer_amended 5 ⟨.waitingForResponse, 3, kMaxAttempts⟩ ⟨.idle, 0, 0⟩).1
      (by decide) (by decide)⟩

/-! ## C4 and C9: CSL transmission window math -/

/-- With a positive period, the advance loop stops at or beyond its
target. -/
theorem advanceTxWindow_ge (P target w : Nat) (hP : 0 < P) :
    target ≤ advanceTxWindow P target w := by
  rw [advanceTxWindow]
  split
  next h => exact advanceTxWindow_ge P target (w + P) hP
  next h => omega
termination_by target - w
decreasing_by omega

/-- The advance loop only adds whole periods: its result is congruent to
its start modulo the period. -/
theorem advanceTxWindow_modEq (P target w : Nat) :
    advanceTxWindow P target w ≡ w [MOD P] := by
  rw [advanceTxWindow]
  split
  next h =>
    exact Nat.ModEq.trans (advanceTxWindow_modEq P target (w + P)) (Nat.add_mod_right w P)
  next h => rfl
termination_by target - w
decreasing_by omega

/-- The advance loop overshoots its target by less than one period. -/
theorem advanceTxWindow_lt (P target w : Nat) (hw : w < target + P) :
    advanceTxWindow P target w < target + P := by
  rw [advanceTxWindow]
  split
  next h => exact advanceTxWindow_lt P target (w + P) (by omega)
  next h => exact hw
termination_by target - w
decreasing_by omega

/-- The starting window estimate of `GetNextCslTransmissionDelay` lies
within one period above `radioNow`. -/
theorem cslStartWindow_lt (radioNow r P : Nat) (hP : 0 < P) :
    radioNow - radioNow % P + r % P < radioNow + P := by
  have h1 : radioNow % P ≤ radioNow := Nat.mod_le radioNow P
  have h2 : r % P < P := Nat.mod_lt r hP
  omega

/-- The computed next tx window stays within one period of the target
`radioNow + aAheadUs`. -/
theorem cslNextTxWindow_lt (n : CslNeighbor) (radioNow aAheadUs : Nat)
    (hper : 0 < n.cslPeriod) :
    cslNextTxWindow n radioNow aAheadUs <
      radioNow + aAheadUs + n.cslPeriod * kUsPerTenSymbols := by
  have hP : 0 < n.cslPeriod * kUsPerTenSymbols := by
    have : (0 : Nat) < kUsPerTenSymbols := by decide
    exact Nat.mul_pos hper this
  unfold cslNextTxWindow
  apply advanceTxWindow_lt
  have := cslStartWindow_lt radioNow
    (n.lastRxTimestamp + n.cslPhase * kUsPerTenSymbols) (n.cslPeriod * kUsPerTenSymbols) hP
  omega

/-- The next tx window reaches the target whenever the period is
positive. -/
theorem cslWindow_ge (n : CslNeighbor) (radioNow aAheadUs : Nat)
    (hP : 0 < n.cslPeriod * kUsPerTenSymbols) :
    radioNow + aAheadUs ≤ cslNextTxWindow n radioNow aAheadUs := by
  unfold cslNextTxWindow
  exact advanceTxWindow_ge _ _ _ hP

/-- The start estimate `radioNow - radioNow % P + r % P` is congruent to
`r` modulo `P`. -/
theorem cslStartWindow_modEq (radioNow r P : Nat) :
    (radioNow - radioNow % P + r % P) % P = r % P := by
  have hdm := Nat.div_add_mod radioNow P
  have hstart : radioNow - radioNow % P = P * (radioNow / P) := by omega
  rw [hstart, Nat.mul_add_mod]
  exact Nat.mod_mod_of_dvd r dvd_rfl

/-- The next tx window minus the last-RX timestamp is congruent to the
phase, both taken in microseconds, modulo the period in microseconds. -/
theorem cslWindow_congruence (n : CslNeighbor) (radioNow aAheadUs : Nat) :
    ((cslNextTxWindow n radioNow aAheadUs : Int) - (n.lastRxTimestamp : Int) ≡
      ((n.cslPhase * kUsPerTenSymbols : Nat) : Int)
        [ZMOD ((n.cslPeriod * kUsPerTenSymbols : Nat) : Int)]) := by
  have h1 : cslNextTxWindow n radioNow aAheadUs ≡
      (radioNow - radioNow % (n.cslPeriod * kUsPerTenSymbols) +
        (n.lastRxTimestamp + n.cslPhase * kUsPerTenSymbols) % (n.cslPeriod * kUsPerTenSymbols))
        [MOD n.cslPeriod * kUsPerTenSymbols] := by
    unfold cslNextTxWindow
    exact advanceTxWindow_modEq _ _ _
  have h2 : cslNextTxWindow n radioNow aAheadUs ≡
      (n.lastRxTimestamp + n.cslPhase * kUsPerTenSymbols)
        [MOD n.cslPeriod * kUsPerTenSymbols] :=
    h1.trans (cslStartWindow_modEq radioNow _ _)
  have h2e : cslNextTxWindow n radioNow aAheadUs % (n.cslPeriod * kUsPerTenSymbols) =
      (n.lastRxTimestamp + n.cslPhase * kUsPerTenSymbols) % (n.cslPeriod * kUsPerTenSymbols) := h2
  have h3 : (cslNextTxWindow n radioNow aAheadUs : Int) ≡
      ((n.lastRxTimestamp + n.cslPhase * kUsPerTenSymbols : Nat) : Int)
        [ZMOD ((n.cslPeriod * kUsPerTenSymbols : Nat) : Int)] := by
    show (cslNextTxWindow n radioNow aAheadUs : Int) % ((n.cslPeriod * kUsPerTenSymbols : Nat) : Int) =
      ((n.lastRxTimestamp + n.cslPhase * kUsPerTenSymbols : Nat) : Int) %
        ((n.cslPeriod * kUsPerTenSymbols : Nat) : Int)
    exact_mod_cast congrArg (fun k : Nat => (k : Int)) h2e
  have h4 := Int.ModEq.sub_right (n.lastRxTimestamp : Int) h3
  have h5 : ((n.lastRxTimestamp + n.cslPhase * kUsPerTenSymbols : Nat) : Int) -
      (n.lastRxTimestamp : Int) = ((n.cslPhase * kUsPerTenSymbols : Nat) : Int) := by
    push_cast
    ring
  rwa [h5] at h4

/-- The `uint32_t` cast of the returned delay loses nothing: the delay is
below one period, which fits in 32 bits for a `uint16_t` period. -/
theorem cslDelay_exact (n : CslNeighbor) (radioNow aAheadUs : Nat)
    (hper : 0 < n.cslPeriod) (hper16 : n.cslPeriod < 2 ^ 16) :
    (getNextCslTransmissionDelay n radioNow aAheadUs).1 =
      cslNextTxWindow n radioNow aAheadUs - radioNow - aAheadUs := by
  unfold getNextCslTransmissionDelay
  apply Nat.mod_eq_of_lt
  have h1 := cslNextTxWindow_lt n radioNow aAheadUs hper
  have h160 : kUsPerTenSymbols = 160 := rfl
  have hmod : u32Mod = 4294967296 := by norm_num [u32Mod]
  have h16 : (2 : Nat) ^ 16 = 65536 := by norm_num
  rw [h160] at h1
  rw [h16] at hper16
  omega

/-- Invariant of the `RescheduleCslTx` candidate fold: the running minimum
never increases, ends at or below every eligible candidate's delay, and
the accumulator is either untouched or holds an eligible member of the
list together with exactly its delay. -/
theorem rescheduleFold_spec (radioNow aAheadUs : Nat) (neighbors : List CslNeighbor) :
    ∀ acc : Nat × Option CslNeighbor,
      (neighbors.foldl (fun a x => processNeighborCslTxTime radioNow aAheadUs x a) acc).1 ≤ acc.1 ∧
      (∀ x ∈ neighbors, cslTxEligible x = true →
        (neighbors.foldl (fun a x => processNeighborCslTxTime radioNow aAheadUs x a) acc).1 ≤
          (getNextCslTransmissionDelay x radioNow aAheadUs).1) ∧
      ((neighbors.foldl (fun a x => processNeighborCslTxTime radioNow aAheadUs x a) acc) = acc ∨
        ∃ b ∈ neighbors, cslTxEligible b = true ∧
          (neighbors.foldl (fun a x => processNeighborCslTxTime radioNow aAheadUs x a) acc) =
            ((getNextCslTransmissionDelay b radioNow aAheadUs).1, some b)) := by
  have hstep : ∀ (a : Nat × Option CslNeighbor) (x : CslNeighbor),
      (processNeighborCslTxTime radioNow aAheadUs x a).1 ≤ a.1 ∧
      (cslTxEligible x = true →
        (processNeighborCslTxTime radioNow aAheadUs x a).1 ≤
          (getNextCslTransmissionDelay x radioNow aAheadUs).1) ∧
      (processNeighborCslTxTime radioNow aAheadUs x a = a ∨
        (cslTxEligible x = true ∧ processNeighborCslTxTime radioNow aAheadUs x a =
          ((getNextCslTransmissionDelay x radioNow aAheadUs).1, some x))) := by
    intro a x
    by_cases he : cslTxEligible x = true <;>
      by_cases hd : (getNextCslTransmissionDelay x radioNow aAheadUs).1 < a.1 <;>
        simp [processNeighborCslTxTime, he, hd] <;> omega
  induction neighbors with
  | nil =>
    intro acc
    refine ⟨le_refl _, ?_, Or.inl rfl⟩
    intro x hx
    simp at hx
  | cons m ms ih =>
    intro acc
    simp only [List.foldl_cons]
    obtain ⟨hs1, hs2, hs3⟩ := hstep acc m
    obtain ⟨ih1, ih2, ih3⟩ := ih (processNeighborCslTxTime radioNow aAheadUs m acc)
    refine ⟨le_trans ih1 hs1, ?_, ?_⟩
    · intro x hx helig
      rcases List.mem_cons.mp hx with h | h
      · subst h
        exact le_trans ih1 (hs2 helig)
      · exact ih2 x h helig
    · rcases ih3 with h | ⟨b, hb, helig, heq⟩
      · rw [h]
        rcases hs3 with h2 | ⟨helig2, heq2⟩
        · exact Or.inl h2
        · exact Or.inr ⟨m, by simp, helig2, heq2⟩
      · exact Or.inr ⟨b, by simp [hb], helig, heq⟩

/-- The delay computed for a neighbor with a positive `uint16_t` period is
strictly below `Time::kMaxDuration`, so the first eligible candidate
always displaces the initial minimum. -/
theorem cslDelay_lt_maxDuration (n : CslNeighbor) (radioNow aAheadUs : Nat)
    (hper : 0 < n.cslPeriod) (hper16 : n.cslPeriod < 2 ^ 16) :
    (getNextCslTransmissionDelay n radioNow aAheadUs).1 < kMaxDuration := by
  rw [cslDelay_exact n radioNow aAheadUs hper hper16]
  have h1 := cslNextTxWindow_lt n radioNow aAheadUs hper
  have h160 : kUsPerTenSymbols = 160 := rfl
  have hmax : kMaxDuration = 4294967295 := by norm_num [kMaxDuration, u32Mod]
  have h16 : (2 : Nat) ^ 16 = 65536 := by norm_num
  rw [h160] at h1
  rw [h16] at hper16
  omega

/-- Specification of `RescheduleCslTx` over a candidate list whose periods
are positive `uint16_t` values: a chosen best neighbor is an eligible
member achieving the minimal delay, and none is chosen iff none is
eligible. -/
theorem reschedule_spec (radioNow aAheadUs : Nat) (neighbors : List CslNeighbor)
    (hbounds : ∀ x ∈ neighbors, 0 < x.cslPeriod ∧ x.cslPeriod < 2 ^ 16) :
    (∀ b, (rescheduleCslTx radioNow aAheadUs neighbors).2 = some b →
      b ∈ neighbors ∧ cslTxEligible b = true ∧
      (rescheduleCslTx radioNow aAheadUs neighbors).1 =
        (getNextCslTransmissionDelay b radioNow aAheadUs).1 ∧
      (∀ x ∈ neighbors, cslTxEligible x = true →
        (rescheduleCslTx radioNow aAheadUs neighbors).1 ≤
          (getNextCslTransmissionDelay x radioNow aAheadUs).1)) ∧
    ((rescheduleCslTx radioNow aAheadUs neighbors).2 = none ↔
      ∀ x ∈ neighbors, cslTxEligible x = false) := by
  obtain ⟨h1, h2, h3⟩ := rescheduleFold_spec radioNow aAheadUs neighbors (kMaxDuration, none)
  have hrw : rescheduleCslTx radioNow aAheadUs neighbors =
      neighbors.foldl (fun a x => processNeighborCslTxTime radioNow aAheadUs x a)
        (kMaxDuration, none) := rfl
  constructor
  · intro b hb
    rw [hrw] at hb
    rcases h3 with h | ⟨b2, hb2, helig2, heq2⟩
    · rw [h] at hb
      exact absurd hb (by simp)
    · have hbb : b = b2 := by
        rw [heq2] at hb
        simpa using hb.symm
      subst hbb
      refine ⟨hb2, helig2, ?_, ?_⟩
      · rw [hrw, heq2]
      · intro x hx helig
        rw [hrw]
        exact h2 x hx helig
  · constructor
    · intro hnone x hx
      rw [hrw] at hnone
      by_contra helig
      have helig2 : cslTxEligible x = true := by
        cases h : cslTxEligible x
        · exact absurd h helig
        · rfl
      rcases h3 with h | ⟨b2, hb2, helig3, heq2⟩
      · have hle := h2 x hx helig2
        rw [h] at hle
        have hlt := cslDelay_lt_maxDuration x radioNow aAheadUs (hbounds x hx).1 (hbounds x hx).2
        simp at hle
        omega
      · rw [heq2] at hnone
        exact absurd hnone (by simp)
    · intro hall
      rw [hrw]
      rcases h3 with h | ⟨b2, hb2, helig3, heq2⟩
      · rw [h]
      · rw [hall b2 hb2] at helig3
        exact absurd helig3 (by simp)

/-- C4: for a CSL neighbor with positive `uint16_t` period, the next tx
window computed by `GetNextCslTransmissionDelay` is at least
`radioNow + aAheadUs`; the window minus the last-RX timestamp is
congruent to the phase (in ten-symbol durations) modulo the period (in
ten-symbol durations); the returned delay is exactly
`nextTxWindow - radioNow - aAheadUs` (the `uint32_t` cast loses nothing);
and `RescheduleCslTx` requests a transmission for an eligible candidate of
minimal delay: a chosen best neighbor is an eligible member of the list
achieving the returned minimal delay, and every eligible neighbor's delay
is at least it, while no neighbor is chosen exactly when no neighbor is
eligible. -/
theorem csl_window_math (n : CslNeighbor) (radioNow aAheadUs : Nat)
    (hper : 0 < n.cslPeriod) (hper16 : n.cslPeriod < 2 ^ 16) :
    radioNow + aAheadUs ≤ cslNextTxWindow n radioNow aAheadUs ∧
    ((cslNextTxWindow n radioNow aAheadUs : Int) - (n.lastRxTimestamp : Int) ≡
      ((n.cslPhase * kUsPerTenSymbols : Nat) : Int)
        [ZMOD ((n.cslPeriod * kUsPerTenSymbols : Nat) : Int)]) ∧
    (getNextCslTransmissionDelay n radioNow aAheadUs).1 =
      cslNextTxWindow n radioNow aAheadUs - radioNow - aAheadUs ∧
    (∀ neighbors : List CslNeighbor,
      (∀ x ∈ neighbors, 0 < x.cslPeriod ∧ x.cslPeriod < 2 ^ 16) →
      (∀ b, (rescheduleCslTx radioNow aAheadUs neighbors).2 = some b →
        b ∈ neighbors ∧ cslTxEligible b = true ∧
        (rescheduleCslTx radioNow aAheadUs neighbors).1 =
          (getNextCslTransmissionDelay b radioNow aAheadUs).1 ∧
        (∀ x ∈ neighbors, cslTxEligible x = true →
          (rescheduleCslTx radioNow aAheadUs neighbors).1 ≤
            (getNextCslTransmissionDelay x radioNow aAheadUs).1)) ∧
      ((rescheduleCslTx radioNow aAheadUs neighbors).2 = none ↔
        ∀ x ∈ neighbors, cslTxEligible x = false)) := by
  have hP : 0 < n.cslPeriod * kUsPerTenSymbols := by
    have : (0 : Nat) < kUsPerTenSymbols := by decide
    exact Nat.mul_pos hper this
  refine ⟨cslWindow_ge n radioNow aAheadUs hP, ?_, ?_, ?_⟩
  · exact cslWindow_congruence n radioNow aAheadUs
  · exact cslDelay_exact n radioNow aAheadUs hper hper16
  · intro neighbors hbounds
    exact reschedule_spec radioNow aAheadUs neighbors hbounds

/-- C4 witness: the window theorem applied to a synchronized neighbor with
period 500 ten-symbol units, phase 0, last RX at 10 000 000 us, radio time
10 012 345 us and 2000 us of frame-request-ahead. -/
theorem csl_window_math_witness :
    (0 < (500 : Nat) ∧ (500 : Nat) < 2 ^ 16) ∧
    10012345 + 2000 ≤
      cslNextTxWindow ⟨500, 0, 10000000, true, 1⟩ 10012345 2000 :=
  ⟨⟨by decide, by decide⟩,
    (csl_window_math ⟨500, 0, 10000000, true, 1⟩ 10012345 2000 (by decide) (by decide)).1⟩

/-- C9: under the synchronization invariant that a synchronized peer has a
positive CSL period, the `periodInUs` used inside
`GetNextCslTransmissionDelay` is nonzero, the window-advance loop of both
the shared/MTD and the FTD variant terminates at a window at or past
`radioNow + aAheadUs` (the two variants agree, since the MTD zero-period
patch is a no-op), and `RescheduleCslTx` computes a delay only for
neighbors that are CSL-synchronized with at least one queued indirect
message — for any other neighbor the candidate step leaves the
accumulator untouched. -/
theorem csl_scheduler_period_nonzero (n : CslNeighbor) (radioNow aAheadUs : Nat)
    (hper : 0 < n.cslPeriod) :
    n.cslPeriod * kUsPerTenSymbols ≠ 0 ∧
    radioNow + aAheadUs ≤ cslNextTxWindow n radioNow aAheadUs ∧
    radioNow + aAheadUs ≤ cslNextTxWindowMtd n radioNow aAheadUs ∧
    cslNextTxWindowMtd n radioNow aAheadUs = cslNextTxWindow n radioNow aAheadUs ∧
    (∀ acc : Nat × Option CslNeighbor, cslTxEligible n = false →
      processNeighborCslTxTime radioNow aAheadUs n acc = acc) := by
  have hP : 0 < n.cslPeriod * kUsPerTenSymbols := by
    have h160 : (0 : Nat) < kUsPerTenSymbols := by decide
    exact Nat.mul_pos hper h160
  have hne : n.cslPeriod * kUsPerTenSymbols ≠ 0 := by omega
  have heq : cslNextTxWindowMtd n radioNow aAheadUs = cslNextTxWindow n radioNow aAheadUs := by
    unfold cslNextTxWindowMtd cslNextTxWindow
    simp only [if_neg hne]
  refine ⟨hne, cslWindow_ge n radioNow aAheadUs hP, ?_, heq, ?_⟩
  · rw [heq]
    exact cslWindow_ge n radioNow aAheadUs hP
  · intro acc helig
    simp [processNeighborCslTxTime, helig]

/-- C9 witness: a synchronized neighbor with period 1 and one queued
message. -/
theorem csl_scheduler_period_nonzero_witness :
    0 < (1 : Nat) ∧
    (1 : Nat) * kUsPerTenSymbols ≠ 0 ∧
    0 + 0 ≤ cslNextTxWindow ⟨1, 0, 0, true, 1⟩ 0 0 :=
  ⟨by decide,
    (csl_scheduler_period_nonzero ⟨1, 0, 0, true, 1⟩ 0 0 (by decide)).1,
    (csl_scheduler_period_nonzero ⟨1, 0, 0, true, 1⟩ 0 0 (by decide)).2.1⟩

/-! ## C5: CSL receive window sizing -/

/-- The claim's per-peer semi-window, written from the claim's words for
comparison: `ceil(elapsed * (local_ppm + peer_ppm) / 1e6)` plus the peer
uncertainty plus the local uncertainty, all in microseconds. -/
def claimSemiWindowPerPeer (cfg : CslRxConfig) (peer : CslRxPeer) (aTime : Nat) : Nat :=
  let elapsed := aTime - peer.cslLastSync
  (elapsed * (cfg.localAccuracyPpm + peer.cslAccuracyPpm) + 999999) / 1000000 +
    peer.cslUncertaintyUs + cfg.localUncertainty10Us * 10

/-- The claim's window edges, written from the claim's words for
comparison: overall semi-window is the maximum of the per-peer values and
at least the local uncertainty, with no special treatment of the parent
candidate. -/
def claimCslWindowEdges (cfg : CslRxConfig) (cslPeriod : Nat)
    (parent parentCandidate : CslRxPeer) (children : List CslRxPeer)
    (curTime : Nat) : Nat × Nat :=
  let semiPeriod := cslPeriod * kUsPerTenSymbols / 2
  let contribs :=
    (if parent.isStateValid then [claimSemiWindowPerPeer cfg parent curTime] else []) ++
    (if parentCandidate.isStateValid then [claimSemiWindowPerPeer cfg parentCandidate curTime]
      else []) ++
    ((children.filter (·.isStateValid)).map (fun c => claimSemiWindowPerPeer cfg c curTime))
  let semiWindow := max (cfg.localUncertainty10Us * 10) (contribs.foldr max 0)
  (min semiPeriod (semiWindow + cfg.minReceiveOnAhead + cfg.cslReceiveTimeAhead),
   min semiPeriod (semiWindow + cfg.minReceiveOnAfter))

/-- The amended window edges, written from the amended claim's words: the
per-peer semi-window uses floor division, the overall semi-window is the
maximum of the per-peer values starting from zero (not from the local
uncertainty), and the parent candidate's contribution carries an extra
5000 us. -/
def amendedCslWindowEdges (cfg : CslRxConfig) (cslPeriod : Nat)
    (parent parentCandidate : CslRxPeer) (children : List CslRxPeer)
    (curTime : Nat) : Nat × Nat :=
  let semiPeriod := cslPeriod * kUsPerTenSymbols / 2
  let contribs :=
    (if parent.isStateValid then [getCslNeighborSemiWindow cfg parent curTime] else []) ++
    (if parentCandidate.isStateValid then
      [getCslNeighborSemiWindow cfg parentCandidate curTime + 5000] else []) ++
    ((children.filter (·.isStateValid)).map (fun c => getCslNeighborSemiWindow cfg c curTime))
  let semiWindow := contribs.foldr max 0
  (min semiPeriod (semiWindow + cfg.minReceiveOnAhead + cfg.cslReceiveTimeAhead),
   min semiPeriod (semiWindow + cfg.minReceiveOnAfter))

/-- The sequential keep-the-larger child fold of `GetCslWindowEdges` is
the maximum of the starting value and the valid children's semi-windows. -/
theorem cslChildFold_eq_max (cfg : CslRxConfig) (curTime : Nat) :
    ∀ (children : List CslRxPeer) (s : Nat),
      children.foldl
        (fun semiWindow child =>
          if child.isStateValid then
            let childSemiWindow := getCslNeighborSemiWindow cfg child curTime
            if childSemiWindow > semiWindow then childSemiWindow else semiWindow
          else semiWindow)
        s =
      max s
        (((children.filter (·.isStateValid)).map
          (fun c => getCslNeighborSemiWindow cfg c curTime)).foldr max 0) := by
  intro children
  induction children with
  | nil =>
    intro s
    simp
  | cons c cs ih =>
    intro s
    by_cases hv : c.isStateValid = true
    · simp only [List.foldl_cons, List.filter_cons, hv, if_true, List.map_cons, List.foldr_cons]
      rw [ih]
      have hmax : (if getCslNeighborSemiWindow cfg c curTime > s
          then getCslNeighborSemiWindow cfg c curTime else s) =
          max s (getCslNeighborSemiWindow cfg c curTime) := by
        split <;> omega
      rw [hmax]
      omega
    · simp only [List.foldl_cons, List.filter_cons, hv, List.map_cons]
      simp only [Bool.false_eq_true, if_false]
      exact ih s

/-- C5 (amended): `SubMac::GetCslWindowEdges` computes exactly the amended
specification — floor division in the per-peer semi-window, an overall
semi-window that is the maximum of the per-peer contributions starting
from zero, an extra 5000 us on the parent candidate's contribution, and
edges clipped to half a CSL period. -/
theorem cslWindowEdges_eq_amended (cfg : CslRxConfig) (cslPeriod : Nat)
    (parent parentCandidate : CslRxPeer) (children : List CslRxPeer) (curTime : Nat) :
    getCslWindowEdges cfg cslPeriod parent parentCandidate children curTime =
      amendedCslWindowEdges cfg cslPeriod parent parentCandidate children curTime := by
  unfold getCslWindowEdges amendedCslWindowEdges
  by_cases hp : parent.isStateValid = true <;>
    by_cases hc : parentCandidate.isStateValid = true <;>
      simp only [hp, hc, if_true, Bool.false_eq_true, if_false, List.append_nil,
        List.nil_append, List.cons_append, List.foldr_cons, List.foldr_nil,
        gt_iff_lt, cslChildFold_eq_max cfg curTime children] <;>
      · rw [Prod.mk.injEq]
        refine ⟨?_, ?_⟩ <;> (try split) <;> omega

/-- C5 counterexample to the claim as stated, at three concrete states:
(1) truncating division — a parent one microsecond past its last sync
with a combined 1 ppm drift yields a zero code semi-window where the
claim's ceiling yields one; (2) with no valid peer the code semi-window
is zero, not the local uncertainty; (3) a valid parent candidate receives
an extra 5000 us in the code that the claim's formula lacks. -/
theorem cslWindowEdges_claim_counterexample :
    (getCslWindowEdges ⟨0, 0, 0, 0, 0⟩ 1000 ⟨true, 0, 1, 0⟩ ⟨false, 0, 0, 0⟩ [] 1 = (0, 0) ∧
      claimCslWindowEdges ⟨0, 0, 0, 0, 0⟩ 1000 ⟨true, 0, 1, 0⟩ ⟨false, 0, 0, 0⟩ [] 1 = (1, 1)) ∧
    (getCslWindowEdges ⟨0, 5, 0, 0, 0⟩ 1000 ⟨false, 0, 0, 0⟩ ⟨false, 0, 0, 0⟩ [] 1 = (0, 0) ∧
      claimCslWindowEdges ⟨0, 5, 0, 0, 0⟩ 1000 ⟨false, 0, 0, 0⟩ ⟨false, 0, 0, 0⟩ [] 1 = (50, 50)) ∧
    (getCslWindowEdges ⟨0, 0, 0, 0, 0⟩ 1000 ⟨false, 0, 0, 0⟩ ⟨true, 0, 0, 0⟩ [] 1 = (5000, 5000) ∧
      claimCslWindowEdges ⟨0, 0, 0, 0, 0⟩ 1000 ⟨false, 0, 0, 0⟩ ⟨true, 0, 0, 0⟩ [] 1 = (0, 0)) := by
  refine ⟨⟨by decide, by decide⟩, ⟨by decide, by decide⟩, ⟨by decide, by decide⟩⟩

/-! ## C8: sub-child next-hop selection -/

/-- A `find?` is the head of the `filter`. -/
theorem find_eq_filter_head {α : Type} (p : α → Bool) :
    ∀ l : List α, l.find? p = (l.filter p).head? := by
  intro l
  induction l with
  | nil => rfl
  | cons a l ih =>
    by_cases h : p a
    · rw [List.find?_cons_of_pos _ h, List.filter_cons_of_pos h, List.head?_cons]
    · rw [List.find?_cons_of_neg _ h, List.filter_cons_of_neg h, ih]

/-- A `find?` over an append searches the left part first. -/
theorem find_append {α : Type} (p : α → Bool) :
    ∀ l1 l2 : List α, (l1 ++ l2).find? p =
      match l1.find? p with
      | some c => some c
      | none => l2.find? p := by
  intro l1 l2
  induction l1 with
  | nil => rfl
  | cons a l ih =>
    by_cases h : p a <;> simp [List.find?_cons, h, ih]

/-- The break-less keep-overwriting fold used by the update-message
forwarders returns the LAST match: the first match of the reversed list,
falling back to the accumulator. -/
theorem foldl_pickLast {α : Type} (p : α → Bool) :
    ∀ (l : List α) (acc : Option α),
      l.foldl (fun acc c => if p c then some c else acc) acc =
        match l.reverse.find? p with
        | some c => some c
        | none => acc := by
  intro l
  induction l with
  | nil =>
    intro acc
    rfl
  | cons a l ih =>
    intro acc
    rw [List.foldl_cons, ih, List.reverse_cons, find_append]
    rcases h : l.reverse.find? p with _ | c
    · by_cases hp : p a <;> simp [List.find?_cons, hp]
    · rfl

/-- C8 (amended): toward a destination RLOC16 that is not the device's
own, `HandleSubChildIdResponse` forwards to the FIRST child in state
`Valid` whose RLOC16 prefix covers the destination, while
`ForwardToSubChildUpdateRequest` and `ForwardToSubChildUpdateResponse`
(whose loops lack the `break`) forward to the LAST such child; in all
three, when no `Valid` child matches, the message is dropped with
`kErrorNoRoute`. -/
theorem subchild_forwarding_amended (dstRloc : Nat) (children : List SubChildEntry) :
    (forwardSubChildIdResponse dstRloc children =
      match (children.filter
          fun c => c.isStateValid && isSubChildOf dstRloc c.rloc16 c.rlocPrefixLength).head? with
      | some c => .sendToLinkLocal c.extAddress
      | none => .noRoute) ∧
    (forwardToSubChildUpdateRequest dstRloc children =
      match children.reverse.find?
          (fun c => c.isStateValid && isSubChildOf dstRloc c.rloc16 c.rlocPrefixLength) with
      | some c => .sendToLinkLocal c.extAddress
      | none => .noRoute) ∧
    forwardToSubChildUpdateResponse dstRloc children =
      forwardToSubChildUpdateRequest dstRloc children ∧
    ((∀ c ∈ children,
        ¬(c.isStateValid = true ∧ isSubChildOf dstRloc c.rloc16 c.rlocPrefixLength = true)) →
      forwardSubChildIdResponse dstRloc children = .noRoute ∧
      forwardToSubChildUpdateRequest dstRloc children = .noRoute ∧
      forwardToSubChildUpdateResponse dstRloc children = .noRoute) := by
  have hreq : forwardToSubChildUpdateRequest dstRloc children =
      match children.reverse.find?
          (fun c => c.isStateValid && isSubChildOf dstRloc c.rloc16 c.rlocPrefixLength) with
      | some c => .sendToLinkLocal c.extAddress
      | none => .noRoute := by
    unfold forwardToSubChildUpdateRequest
    rw [foldl_pickLast]
    rcases h : children.reverse.find?
        (fun c => c.isStateValid && isSubChildOf dstRloc c.rloc16 c.rlocPrefixLength) with _ | c <;>
      rw [h]
  refine ⟨?_, hreq, rfl, ?_⟩
  · unfold forwardSubChildIdResponse
    rw [find_eq_filter_head]
  · intro hnone
    have hp : ∀ c ∈ children,
        ¬(c.isStateValid && isSubChildOf dstRloc c.rloc16 c.rlocPrefixLength) = true := by
      intro c hc
      have := hnone c hc
      simp only [Bool.and_eq_true]
      tauto
    have hfind : children.find?
        (fun c => c.isStateValid && isSubChildOf dstRloc c.rloc16 c.rlocPrefixLength) = none :=
      List.find?_eq_none.mpr hp
    have hfindrev : children.reverse.find?
        (fun c => c.isStateValid && isSubChildOf dstRloc c.rloc16 c.rlocPrefixLength) = none :=
      List.find?_eq_none.mpr (fun c hc => hp c (List.mem_reverse.mp hc))
    refine ⟨?_, ?_, ?_⟩
    · unfold forwardSubChildIdResponse
      rw [hfind]
    · rw [hreq, hfindrev]
    · show forwardToSubChildUpdateResponse dstRloc children = _
      unfold forwardToSubChildUpdateResponse
      rw [foldl_pickLast, hfindrev]

/-- C8 counterexample to the claim as stated: with two `Valid` children
both of whose RLOC16 prefixes cover the destination, the Child ID
Response path picks the first but the Child Update Request and Response
paths pick the LAST, not the first. -/
theorem subchild_forwarding_counterexample :
    forwardSubChildIdResponse 5 [⟨true, 5, 16, 100⟩, ⟨true, 5, 16, 200⟩] =
      .sendToLinkLocal 100 ∧
    forwardToSubChildUpdateRequest 5 [⟨true, 5, 16, 100⟩, ⟨true, 5, 16, 200⟩] =
      .sendToLinkLocal 200 ∧
    forwardToSubChildUpdateResponse 5 [⟨true, 5, 16, 100⟩, ⟨true, 5, 16, 200⟩] =
      .sendToLinkLocal 200 ∧
    (ForwardResult.sendToLinkLocal 200 ≠ ForwardResult.sendToLinkLocal 100) := by
  refine ⟨by decide, by decide, by decide, by decide⟩

/-- C8 witness: with one `Valid` child whose prefix does not cover the
destination, all three forwarders drop with `NoRoute`. -/
theorem subchild_forwarding_amended_witness :
    (∀ c ∈ [(⟨true, 9, 16, 100⟩ : SubChildEntry)],
      ¬(c.isStateValid = true ∧ isSubChildOf 5 c.rloc16 c.rlocPrefixLength = true)) ∧
    forwardSubChildIdResponse 5 [⟨true, 9, 16, 100⟩] = .noRoute :=
  ⟨by decide,
    ((subchild_forwarding_amended 5 [⟨true, 9, 16, 100⟩]).2.2.2 (by decide)).1⟩

/-! ## C7: graceful detach -/

/-- Once the detacher is idle, further events leave it untouched. -/
theorem detacherStep_idle (st : DetacherM) (ev : Nat × DetachEvent)
    (h : st.dstate = .idle) : detacherStep st ev = st := by
  rcases ev with ⟨t, e⟩
  cases e with
  | timerFire =>
    simp [detacherStep, detacherHandleTimer, h]
  | childUpdateResponse v =>
    simp [detacherStep, detacherHandleChildUpdateResponse, h]

/-- A run from an idle detacher changes nothing. -/
theorem detacherRun_idle (evs : List (Nat × DetachEvent)) :
    ∀ st : DetacherM, st.dstate = .idle → detacherRun st evs = st := by
  induction evs with
  | nil =>
    intro st _
    rfl
  | cons ev evs ih =>
    intro st h
    rw [detacherRun, List.foldl_cons, detacherStep_idle st ev h]
    exact ih st h

/-- Stopping MLE while detaching with the callback set yields the final
state directly: idle, callback cleared, MLE stopped, one new invocation
stamped with the stop time and the stopped-before-callback flag. -/
theorem mleStop_detaching (t : Nat) (st : DetacherM)
    (hd : st.dstate = .detaching) (hcb : st.callbackSet = true) :
    mleStop t st =
      { dstate := .idle, callbackSet := false, mleStopped := true,
        sentZeroTimeoutChildUpdate := st.sentZeroTimeoutChildUpdate,
        invocations := st.invocations ++ [(t, true)] } := by
  simp [mleStop, detacherHandleStop, hd, hcb]

/-- A detaching detacher with its callback set, fed a chronological event
list containing the timer firing at `tf`, ends idle with MLE stopped and
exactly one callback invocation, at a time at most `tf` and with MLE
already stopped when the callback ran. -/
theorem detacherRun_invokes (tf : Nat) :
    ∀ (evs : List (Nat × DetachEvent)) (st : DetacherM),
      st.dstate = .detaching → st.callbackSet = true →
      List.Pairwise (fun a b => a.1 ≤ b.1) evs →
      (tf, DetachEvent.timerFire) ∈ evs →
      ∃ t, t ≤ tf ∧
        detacherRun st evs =
          { dstate := .idle, callbackSet := false, mleStopped := true,
            sentZeroTimeoutChildUpdate := st.sentZeroTimeoutChildUpdate,
            invocations := st.invocations ++ [(t, true)] } := by
  intro evs
  induction evs with
  | nil =>
    intro st _ _ _ hmem
    simp at hmem
  | cons ev evs ih =>
    intro st hd hcb hsorted hmem
    have hsortedTail := List.Pairwise.of_cons hsorted
    have hheadLe : ∀ b ∈ evs, ev.1 ≤ b.1 := fun b hb => List.rel_of_pairwise_cons hsorted hb
    rcases ev with ⟨te, e⟩
    cases e with
    | timerFire =>
      have hstop : detacherStep st (te, DetachEvent.timerFire) = mleStop te st := by
        simp [detacherStep, detacherHandleTimer, hd]
      have hte : te ≤ tf := by
        rcases List.mem_cons.mp hmem with h | h
        · have : te = tf := by
            have := congrArg Prod.fst h.symm
            simpa using this
          omega
        · exact hheadLe _ h
      refine ⟨te, hte, ?_⟩
      rw [detacherRun, List.foldl_cons, hstop, mleStop_detaching te st hd hcb]
      exact detacherRun_idle evs _ rfl
    | childUpdateResponse v =>
      have hmemTail : (tf, DetachEvent.timerFire) ∈ evs := by
        rcases List.mem_cons.mp hmem with h | h
        · exact absurd (congrArg Prod.snd h.symm) (by simp)
        · exact h
      by_cases hv : v = 0
      · subst hv
        have hstop : detacherStep st (te, DetachEvent.childUpdateResponse 0) = mleStop te st := by
          simp [detacherStep, detacherHandleChildUpdateResponse, hd]
        refine ⟨te, hheadLe _ hmemTail, ?_⟩
        rw [detacherRun, List.foldl_cons, hstop, mleStop_detaching te st hd hcb]
        exact detacherRun_idle evs _ rfl
      · have hskip : detacherStep st (te, DetachEvent.childUpdateResponse v) = st := by
          simp [detacherStep, detacherHandleChildUpdateResponse, hd, hv]
        rw [detacherRun, List.foldl_cons, hskip]
        exact ih st hd hcb hsortedTail hmemTail

/-- C7: after `detach_gracefully` on a device attached as a child, a
zero-timeout Child Update Request is sent to the parent and, over any
chronological sequence of subsequent events containing the `kTimeout`
timer expiry, the callback is invoked exactly once, at a time at most
`kTimeout` after the call — when the zero-timeout Child Update Response
arrives, or at the timer expiry — and MLE is stopped before the callback
runs. -/
theorem detach_gracefully_spec (t0 : Nat) (evs : List (Nat × DetachEvent))
    (st1 : DetacherM) (timeout : Nat)
    (hdetach : detacherDetach .child ⟨.idle, false, false, false, []⟩ = some (st1, timeout))
    (hsorted : List.Pairwise (fun a b => a.1 ≤ b.1) evs)
    (htimer : (t0 + timeout, DetachEvent.timerFire) ∈ evs) :
    timeout = kDetacherTimeout ∧
    st1.sentZeroTimeoutChildUpdate = true ∧
    ∃ t, t ≤ t0 + timeout ∧
      (detacherRun st1 evs).invocations = [(t, true)] ∧
      (detacherRun st1 evs).mleStopped = true ∧
      (detacherRun st1 evs).callbackSet = false := by
  have hval : st1 = ⟨.detaching, true, false, true, []⟩ ∧ timeout = kDetacherTimeout := by
    have h := hdetach
    simp [detacherDetach] at h
    exact ⟨h.1.symm, h.2.symm⟩
  obtain ⟨hst1, htimeout⟩ := hval
  subst hst1
  obtain ⟨t, ht, hrun⟩ := detacherRun_invokes (t0 + timeout) evs
    ⟨.detaching, true, false, true, []⟩ rfl rfl hsorted htimer
  exact ⟨htimeout, rfl, t, ht, by rw [hrun]; rfl, by rw [hrun], by rw [hrun]⟩

/-- C7 witness: the parent answers with a zero-timeout Child Update
Response at time 120, and the timer would fire at 1000. -/
theorem detach_gracefully_spec_witness :
    (detacherDetach .child ⟨.idle, false, false, false, []⟩ =
      some (⟨.detaching, true, false, true, []⟩, kDetacherTimeout)) ∧
    ∃ t, t ≤ 0 + kDetacherTimeout ∧
      (detacherRun ⟨.detaching, true, false, true, []⟩
          [(120, .childUpdateResponse 0), (1000, .timerFire)]).invocations = [(t, true)] ∧
      (detacherRun ⟨.detaching, true, false, true, []⟩
          [(120, .childUpdateResponse 0), (1000, .timerFire)]).mleStopped = true ∧
      (detacherRun ⟨.detaching, true, false, true, []⟩
          [(120, .childUpdateResponse 0), (1000, .timerFire)]).callbackSet = false :=
  ⟨by decide,
    (detach_gracefully_spec 0 [(120, .childUpdateResponse 0), (1000, .timerFire)]
        ⟨.detaching, true, false, true, []⟩ kDetacherTimeout
        (by decide) (by decide) (by decide)).2.2⟩

/-! ## C10: CSL neighbor entry tables -/

/-- C10: `SubMac::UpdateCslNeighbors` evaluated at a state whose parent is
not in state `Valid` (with RLOC16 1 and extended address 10) while the
parent CANDIDATE is in state `Valid` (with RLOC16 2 and extended address
20): the rebuilt tables hold the PARENT's RLOC16 and extended address,
not the candidate's own. -/
theorem updateCslNeighbors_candidate_slip :
    updateCslNeighbors ⟨false, 1, 10⟩ ⟨true, 2, 20⟩ [] =
      { shortEntries := [1], extEntries := [10] } ∧
    updateCslNeighbors ⟨false, 1, 10⟩ ⟨true, 2, 20⟩ [] ≠
      { shortEntries := [2], extEntries := [20] } := by
  refine ⟨by decide, by decide⟩

end OpenThread
